import Mathlib

/-!
Shallow embedding of the timeline reconciliation and pagination engine of a
chat room view (src/src/widgets/chat.rs), together with the parts of its data
model that the engine manipulates.  Pure Rust methods become Lean functions;
the mutable `Chat` struct becomes an explicit `ChatState` record, and each
mutating entrypoint returns the new state together with the list of backend
calls (`Effect`s) it emitted.  `usize` arithmetic is modelled as `Nat` with an
explicit wrap modulo 2^64 where the source can overflow.
-/

/-- Event payload variants of a raw room event.
Modelled from the spec: the `kind` variants of a RawEvent (section 3):
`RootMessage`, `Edit`, `Reaction` (additions; removals arrive as a
`Redaction` of the prior reaction event), `Redaction`, `Membership`.
The concrete Rust type (`ruma::events::AnyTimelineEvent` plus the
classification in src/widgets/message.rs) is not part of the provided
sources. -/
inductive EventKind where
  | rootMessage (body : String)
  | edit (target : Nat) (newBody : String)
  | reaction (target : Nat) (body : String)
  | redaction (target : Nat)
  | membership (state : String)
deriving DecidableEq

/-- A raw room event as the engine sees it: globally unique `id`, the room it
belongs to, its origin server timestamp, its sender and its payload
(spec section 3; in the source this is `ruma::events::AnyTimelineEvent`,
accessed through `event_id()`, `room_id()`, `origin_server_ts()` and
`sender()`).  Ids, room ids and user ids are opaque, modelled as `Nat`. -/
structure RawEvent where
  id : Nat
  room_id : Nat
  timestamp : Nat
  sender_id : Nat
  kind : EventKind
deriving DecidableEq

/-- A resolved room member. Modelled from the spec: `user_id` plus an optional
`display_name` (section 3); the source type `matrix_sdk::room::RoomMember` is
external to the provided sources. -/
structure Member where
  user_id : Nat
  display_name : Option String
deriving DecidableEq

/-- One reaction event inside a reaction bucket: who sent it and the id of the
reaction event itself.  Modelled from the spec (section 3); the source type
lives in src/widgets/message.rs which is not part of the provided sources. -/
structure ReactionEvent where
  sender_id : Nat
  id : Nat
deriving DecidableEq

/-- A reaction bucket: a body (emoji key) and the reaction events grouped
under it.  Modelled from the spec (section 3). -/
structure Reaction where
  body : String
  events : List ReactionEvent
deriving DecidableEq

/-- A display-ready message, recomputed from the event store on each mutation.
Modelled from the spec (section 3): id of the originating root event, the
sender id and its resolved display string, the current body (after edits),
an edited flag, and the reaction buckets. -/
structure Message where
  id : Nat
  sender_id : Nat
  sender : String
  body : String
  edited : Bool
  reactions : List Reaction
deriving DecidableEq

/-- A backend call emitted by an engine entrypoint: the fire-and-forget
network requests of src/matrix.rs that chat.rs invokes
(`fetch_messages`, `fetch_room_member`, `read_to`). -/
inductive Effect where
  | fetchMessages (room : Nat) (cursor : Option String)
  | fetchRoomMember (room : Nat) (user : Nat)
  | readTo (room : Nat) (event : Nat)
deriving DecidableEq

/-- A fetch-batch result. Modelled from the spec: result of
`fetch_messages` (section 6) — the events plus the next backward cursor;
`crate::handler::Batch` itself is not in the provided sources, its fields
follow their use in `Chat::batch_event` (`batch.room`, `batch.events`,
`batch.cursor`). -/
structure Batch where
  room : Nat
  events : List RawEvent
  cursor : Option String
deriving DecidableEq

/-- The state of the `Chat` struct (src/src/widgets/chat.rs, lines 38-53),
restricted to the engine fields: the sorted event store, the assembled
message list, the read marker, the pagination cursor and in-flight flag, the
focus flag, the list selection (`ListState.selected`), the resolved members
and the in-flight member lookups.  Rendering-only fields (`matrix`, `react`,
`delete_combo`) carry no engine state and are omitted. -/
structure ChatState where
  room_id : Nat
  events : List RawEvent
  messages : List Message
  read_to : Option Nat
  next_cursor : Option String
  fetching : Bool
  focus : Bool
  selected : Option Nat
  members : List Member
  in_flight : List Nat
deriving DecidableEq

/-- 2^64, the usize modulus. -/
def U64 : Nat := 2 ^ 64

/-- Wrapping usize subtraction: `a - b` modulo 2^64 (release-mode Rust
semantics for the two subtractions in chat.rs that can underflow:
`messages.len() - selected` and `messages.len() - 1`). -/
def usizeSub (a b : Nat) : Nat := (a % U64 + (U64 - b % U64)) % U64

/-- A placeholder raw event used only as the default for out-of-range
`List.getD` reads inside the binary search; every in-range call never
reaches it. -/
def dummyEvent : RawEvent :=
  { id := 0, room_id := 0, timestamp := 0, sender_id := 0,
    kind := EventKind.membership "" }

/-- Core loop of Rust `slice::binary_search_by` with the `Ok(i) | Err(i)`
collapse applied at the call site of `sorted_vec::SortedVec::push`: on the
probe at `mid` it recurses right on `Less`, left on `Greater`, and returns
`mid` on `Equal`; when the window is empty it returns `left`.  The comparison
is the `Ord` instance of `OrderedEvent` (chat.rs lines 562-566), which
compares `origin_server_ts` only.  The `fuel` argument makes the recursion
structural; `fuel ≥ right - left` suffices since the window shrinks by at
least one each step. -/
def bsInsertGo (xs : List RawEvent) (x : Nat) : Nat → Nat → Nat → Nat
  | 0, left, _ => left
  | fuel + 1, left, right =>
    if left < right then
      let mid := left + (right - left) / 2
      match compare ((xs.getD mid dummyEvent).timestamp) x with
      | Ordering.lt => bsInsertGo xs x fuel (mid + 1) right
      | Ordering.gt => bsInsertGo xs x fuel left mid
      | Ordering.eq => mid
    else left

/-- The index at which `SortedVec::push` inserts an event with timestamp `x`
into the store `xs`: `binary_search` over the whole vector, collapsing
`Ok`/`Err` to the returned position. -/
def insertIdx (xs : List RawEvent) (x : Nat) : Nat :=
  bsInsertGo xs x xs.length 0 xs.length

/-- `sorted_vec::SortedVec::push`: insert the element at the position found by
binary search (`Vec::insert` shifts the tail right).  Used by
`Chat::timeline_event` and `Chat::batch_event` via `self.events.push(..)`. -/
def sortedVecPush (xs : List RawEvent) (e : RawEvent) : List RawEvent :=
  let i := insertIdx xs e.timestamp
  xs.take i ++ e :: xs.drop i

/-- Modelled from the spec: `Message::get_sender` (src/widgets/message.rs is
not in the provided sources).  Every RawEvent carries a `sender_id`
(section 3), so the lookup returns it. -/
def Message.get_sender (e : RawEvent) : Option Nat := some e.sender_id

/-- Modelled from the spec: `Message::try_from` (src/widgets/message.rs is not
in the provided sources).  A `RootMessage` event becomes a Message stub —
body from the event, not yet edited, no reactions, sender rendered as the
raw id until resolved (section 4.2 steps 1 and 3); every other kind is a
modifier and yields none. -/
def Message.try_from (e : RawEvent) : Option Message :=
  match e.kind with
  | EventKind.rootMessage body =>
      some { id := e.id, sender_id := e.sender_id, sender := toString e.sender_id,
             body := body, edited := false, reactions := [] }
  | _ => none

/-- Append a reaction event to the bucket keyed by `body`, creating the bucket
if absent.  Modelled from the spec (section 4.2, Reaction Add). -/
def addReactionEvent : List Reaction → String → ReactionEvent → List Reaction
  | [], body, ev => [{ body := body, events := [ev] }]
  | b :: rest, body, ev =>
      if b.body = body then { b with events := b.events ++ [ev] } :: rest
      else b :: addReactionEvent rest body ev

/-- Remove the reaction event with the given id from every bucket, dropping
buckets that become empty.  Modelled from the spec (section 4.2, Reaction
Remove via Redaction of the prior reaction event). -/
def removeReactionEvent (rs : List Reaction) (target : Nat) : List Reaction :=
  (rs.map (fun r => { r with events := r.events.filter (fun ev => ev.id != target) })).filter
    (fun r => !r.events.isEmpty)

/-- Modelled from the spec: `Message::merge_into_message_list`
(src/widgets/message.rs is not in the provided sources).  Applies one
modifier event against the stub list (section 4.2 step 2): an Edit rewrites
the body of the target message; a Reaction appends to the bucket keyed by its
body; a Redaction removes the target message entirely if the target is a root
message, otherwise removes the redacted reaction event; Membership changes
nothing; modifiers whose target is not found are dropped silently. -/
def Message.merge_into_message_list (msgs : List Message) (e : RawEvent) : List Message :=
  match e.kind with
  | EventKind.rootMessage _ => msgs
  | EventKind.edit target newBody =>
      msgs.map (fun m => if m.id = target then { m with body := newBody, edited := true } else m)
  | EventKind.reaction target body =>
      msgs.map (fun m =>
        if m.id = target then
          { m with reactions :=
              addReactionEvent m.reactions body ⟨e.sender_id, e.id⟩ }
        else m)
  | EventKind.redaction target =>
      if msgs.any (fun m => m.id == target) then
        msgs.filter (fun m => m.id != target)
      else
        msgs.map (fun m => { m with reactions := removeReactionEvent m.reactions target })
  | EventKind.membership _ => msgs

/-- Modelled from the spec: `Message::update_senders`
(src/widgets/message.rs is not in the provided sources).  Resolves the
message sender id against the member set; unresolved senders keep rendering
as the raw id (section 4.2 step 3). -/
def Message.update_senders (m : Message) (members : List Member) : Message :=
  match members.find? (fun mem => mem.user_id == m.sender_id) with
  | some mem => { m with sender := mem.display_name.getD (toString mem.user_id) }
  | none => m

/-- Merge one bucket into an accumulator, combining buckets with equal
bodies. -/
def mergeBucket : List Reaction → Reaction → List Reaction
  | [], r => [r]
  | b :: rest, r =>
      if b.body = r.body then { b with events := b.events ++ r.events } :: rest
      else b :: mergeBucket rest r

/-- Modelled from the spec: `Reaction::merge` (src/widgets/message.rs is not
in the provided sources).  Defensive re-merge of duplicate-body buckets
(section 4.2 step 4). -/
def Reaction.merge (rs : List Reaction) : List Reaction := rs.foldl mergeBucket []

/-- `make_message_list` (chat.rs lines 658-693): split the ordered timeline
into root-message stubs and modifiers, apply the modifiers in order, resolve
sender names, re-merge reaction buckets, and reverse the list so the newest
message comes first. -/
def make_message_list (timeline : List RawEvent) (members : List Member) : List Message :=
  let split := timeline.foldl
    (fun (acc : List Message × List RawEvent) e =>
      match Message.try_from e with
      | some m => (acc.1 ++ [m], acc.2)
      | none => (acc.1, acc.2 ++ [e]))
    ([], [])
  let msgs := split.2.foldl Message.merge_into_message_list split.1
  let msgs := msgs.map (fun m => m.update_senders members)
  let msgs := msgs.map (fun m => { m with reactions := Reaction.merge m.reactions })
  msgs.reverse

/-- `Chat::new` (chat.rs lines 56-74): issues the initial backward fetch and
starts with an empty store, no cursor, the in-flight flag set, focus held and
no selection. -/
def Chat.new (room_id : Nat) : ChatState × List Effect :=
  ({ room_id := room_id, events := [], messages := [], read_to := none,
     next_cursor := none, fetching := true, focus := true, selected := none,
     members := [], in_flight := [] },
   [Effect.fetchMessages room_id none])

/-- `Chat::check_sender` (chat.rs lines 331-349): if the event has a sender
that is neither already known nor already in flight, record it as in flight
and emit one member lookup. -/
def Chat.check_sender (s : ChatState) (e : RawEvent) : ChatState × List Effect :=
  match Message.get_sender e with
  | none => (s, [])
  | some uid =>
    if uid ∈ s.members.map Member.user_id then (s, [])
    else if uid ∈ s.in_flight then (s, [])
    else ({ s with in_flight := s.in_flight ++ [uid] },
          [Effect.fetchRoomMember s.room_id uid])

/-- Inner loop of `Vec::dedup_by` on the message list: drop each element whose
id equals the id of the last kept element. -/
def dedupFrom (a : Message) : List Message → List Message
  | [] => []
  | b :: rest => if b.id = a.id then dedupFrom a rest else b :: dedupFrom b rest

/-- `Vec::dedup_by(|left, right| left.id == right.id)`: keep the first of each
run of consecutive messages with equal ids. -/
def dedupRun : List Message → List Message
  | [] => []
  | a :: rest => a :: dedupFrom a rest

/-- `Chat::dedupe_events` (chat.rs lines 413-420): dedups consecutive
duplicates of the *message* list by id (the log line is a no-op for the
state). -/
def Chat.dedupe_events (s : ChatState) : ChatState :=
  { s with messages := dedupRun s.messages }

/-- `Chat::set_fully_read` (chat.rs lines 355-370): while focused, if the head
message id differs from the stored marker and exists, report it read and
update the marker. -/
def Chat.set_fully_read (s : ChatState) : ChatState × List Effect :=
  if s.focus then
    let rt := s.messages.head?.map Message.id
    if rt = s.read_to then (s, [])
    else
      match rt with
      | some id => ({ s with read_to := some id }, [Effect.readTo s.room_id id])
      | none => (s, [])
  else (s, [])

/-- `Chat::focus_event` (chat.rs lines 276-279). -/
def Chat.focus_event (s : ChatState) : ChatState × List Effect :=
  Chat.set_fully_read { s with focus := true }

/-- `Chat::blur_event` (chat.rs lines 281-283). -/
def Chat.blur_event (s : ChatState) : ChatState :=
  { s with focus := false }

/-- `Chat::timeline_event` (chat.rs lines 285-295): ignore events of other
rooms; otherwise note the sender, push the event into the sorted store, run
the (stale-list) dedup, rebuild the message list and update the read
marker. -/
def Chat.timeline_event (s : ChatState) (e : RawEvent) : ChatState × List Effect :=
  if e.room_id = s.room_id then
    let cs := Chat.check_sender s e
    let s1 := { cs.1 with events := sortedVecPush cs.1.events e }
    let s2 := Chat.dedupe_events s1
    let s3 := { s2 with messages := make_message_list s2.events s2.members }
    let sr := Chat.set_fully_read s3
    (sr.1, cs.2 ++ sr.2)
  else (s, [])

/-- `Chat::try_fetch_previous` (chat.rs lines 432-447): with a cursor present
and no fetch in flight, fetch backward when the margin between the message
count and the selection drops below 25, setting the in-flight flag. -/
def Chat.try_fetch_previous (s : ChatState) : ChatState × List Effect :=
  if s.next_cursor = none ∨ s.fetching then (s, [])
  else
    let buffer := usizeSub s.messages.length (s.selected.getD 0)
    if buffer < 25 then
      ({ s with fetching := true }, [Effect.fetchMessages s.room_id s.next_cursor])
    else (s, [])

/-- One step of the event loop in `Chat::batch_event` (chat.rs lines
305-308): note the sender and push the event into the sorted store,
accumulating the emitted lookups. -/
def Chat.push_batch (acc : ChatState × List Effect) (e : RawEvent) : ChatState × List Effect :=
  let cs := Chat.check_sender acc.1 e
  ({ cs.1 with events := sortedVecPush cs.1.events e }, acc.2 ++ cs.2)

/-- `Chat::batch_event` (chat.rs lines 297-329): ignore batches of other
rooms; otherwise store the new cursor, ingest every event, run the
(stale-list) dedup, rebuild the message list, clear the in-flight flag,
update the read marker, select the first entry if the list was empty before
the rebuild, and re-evaluate the backward fetch only when the batch made the
message count strictly grow. -/
def Chat.batch_event (s : ChatState) (b : Batch) : ChatState × List Effect :=
  if b.room = s.room_id then
    let s0 := { s with next_cursor := b.cursor }
    let previous_count := s0.messages.length
    let sp := b.events.foldl Chat.push_batch (s0, [])
    let s1 := Chat.dedupe_events sp.1
    let reset := s1.messages.isEmpty
    let s2 := { s1 with messages := make_message_list s1.events s1.members,
                        fetching := false }
    let sr := Chat.set_fully_read s2
    let s3 := if reset then { sr.1 with selected := some 0 } else sr.1
    if s3.messages.length > previous_count then
      let tf := Chat.try_fetch_previous s3
      (tf.1, sp.2 ++ sr.2 ++ tf.2)
    else (s3, sp.2 ++ sr.2)
  else (s, [])

/-- `Chat::room_member_event` (chat.rs lines 422-430): ignore members of other
rooms; otherwise drop the id from the in-flight list, append the member to
the member list and rebuild the message list. -/
def Chat.room_member_event (s : ChatState) (room : Nat) (member : Member) :
    ChatState × List Effect :=
  if s.room_id = room then
    let s1 := { s with in_flight := s.in_flight.filter (fun id => id != member.user_id),
                       members := s.members ++ [member] }
    ({ s1 with messages := make_message_list s1.events s1.members }, [])
  else (s, [])

/-- `Chat::next` (chat.rs lines 449-465): move the selection up by one,
clamping at `messages.len() - 1` — a wrapping subtraction when the list is
empty. -/
def Chat.next (s : ChatState) : ChatState :=
  let i := match s.selected with
    | some i =>
        if i ≥ usizeSub s.messages.length 1 then usizeSub s.messages.length 1
        else i + 1
    | none => 0
  { s with selected := some i }

/-- `Chat::previous` (chat.rs lines 467-483): move the selection down by one,
stopping at 0. -/
def Chat.previous (s : ChatState) : ChatState :=
  let i := match s.selected with
    | some i => if i = 0 then 0 else i - 1
    | none => 0
  { s with selected := some i }

/-- `Chat::selected_message` (chat.rs lines 486-496): none when the list is
empty, otherwise the entry at the selected index (defaulting to 0). -/
def Chat.selected_message (s : ChatState) : Option Message :=
  if s.messages.isEmpty then none
  else s.messages.get? (s.selected.getD 0)

/-- Ingest a list of live timeline events one by one. -/
def Chat.ingest_all (s : ChatState) (l : List RawEvent) : ChatState :=
  l.foldl (fun t e => (Chat.timeline_event t e).1) s

/-- One arrival at the engine: either a live push event delivered to
`timeline_event`, or a fetch-batch result delivered to `batch_event`. -/
inductive Delivery where
  | live (e : RawEvent)
  | batch (b : Batch)
deriving DecidableEq

/-- The raw events an arrival carries. -/
def Delivery.events : Delivery → List RawEvent
  | Delivery.live e => [e]
  | Delivery.batch b => b.events

/-- The room an arrival is addressed to. -/
def Delivery.room : Delivery → Nat
  | Delivery.live e => e.room_id
  | Delivery.batch b => b.room

/-- Apply one arrival through its entrypoint. -/
def Chat.deliver (s : ChatState) : Delivery → ChatState
  | Delivery.live e => (Chat.timeline_event s e).1
  | Delivery.batch b => (Chat.batch_event s b).1

/-- Apply a whole arrival schedule in order. -/
def Chat.deliver_all (s : ChatState) (ds : List Delivery) : ChatState :=
  ds.foldl Chat.deliver s

/-- All events a schedule delivers, in arrival order. -/
def deliveredEvents (ds : List Delivery) : List RawEvent :=
  (ds.map Delivery.events).flatten

/-- Comparison key of the `Ord` instance on `OrderedEvent`: timestamps,
non-strictly. -/
def tsLe (a b : RawEvent) : Prop := a.timestamp ≤ b.timestamp

/-- Strict timestamp order. -/
def tsLt (a b : RawEvent) : Prop := a.timestamp < b.timestamp

/-- Distinct timestamps. -/
def tsNe (a b : RawEvent) : Prop := a.timestamp ≠ b.timestamp

/-- Timestamp order with ties broken by event id — the order the spec claims
the store maintains. -/
def tsIdLe (a b : RawEvent) : Prop :=
  a.timestamp < b.timestamp ∨ (a.timestamp = b.timestamp ∧ a.id ≤ b.id)

instance : DecidableRel tsLe := fun a b =>
  inferInstanceAs (Decidable (a.timestamp ≤ b.timestamp))

instance : DecidableRel tsLt := fun a b =>
  inferInstanceAs (Decidable (a.timestamp < b.timestamp))

instance : DecidableRel tsNe := fun a b =>
  inferInstanceAs (Decidable (a.timestamp ≠ b.timestamp))

instance : DecidableRel tsIdLe := fun a b =>
  inferInstanceAs
    (Decidable (a.timestamp < b.timestamp ∨ (a.timestamp = b.timestamp ∧ a.id ≤ b.id)))

/-- The timestamp stored at index `j`, with the placeholder out of range. -/
def tsAt (xs : List RawEvent) (j : Nat) : Nat := (xs.getD j dummyEvent).timestamp

/-- The state reached inside `Chat::batch_event` (matching room) just before
the progress check: cursor stored, events ingested, stale-list dedup run,
message list rebuilt, in-flight flag cleared, read marker updated, selection
reset if the list was empty.  Spelled out so the progress check can be
reasoned about; equal by definition to the corresponding part of
`Chat.batch_event`. -/
def batchMid (s : ChatState) (b : Batch) : ChatState :=
  let s0 := { s with next_cursor := b.cursor }
  let sp := b.events.foldl Chat.push_batch (s0, [])
  let s1 := Chat.dedupe_events sp.1
  let s2 := { s1 with messages := make_message_list s1.events s1.members,
                      fetching := false }
  let sr := Chat.set_fully_read s2
  if s1.messages.isEmpty then { sr.1 with selected := some 0 } else sr.1

/-- The effects `Chat::batch_event` (matching room) emits before the progress
check: the member lookups of its ingest loop and the possible read
receipt. -/
def batchEffs (s : ChatState) (b : Batch) : List Effect :=
  let s0 := { s with next_cursor := b.cursor }
  let sp := b.events.foldl Chat.push_batch (s0, [])
  let s1 := Chat.dedupe_events sp.1
  let s2 := { s1 with messages := make_message_list s1.events s1.members,
                      fetching := false }
  sp.2 ++ (Chat.set_fully_read s2).2

/-! ## Structural lemmas about the entrypoints -/

/-- `check_sender` changes at most the in-flight list. -/
theorem check_sender_shape (s : ChatState) (e : RawEvent) :
    ∃ fl eff, Chat.check_sender s e = ({ s with in_flight := fl }, eff) := by
  unfold Chat.check_sender Message.get_sender
  by_cases h1 : e.sender_id ∈ s.members.map Member.user_id
  · exact ⟨s.in_flight, [], by simp [h1]⟩
  · by_cases h2 : e.sender_id ∈ s.in_flight
    · exact ⟨s.in_flight, [], by simp [h1, h2]⟩
    · exact ⟨s.in_flight ++ [e.sender_id], [Effect.fetchRoomMember s.room_id e.sender_id],
        by simp [h1, h2]⟩

/-- The lookups emitted by `check_sender` are at most one member fetch. -/
theorem check_sender_effects (s : ChatState) (e : RawEvent) :
    (Chat.check_sender s e).2 = [] ∨
    (Chat.check_sender s e).2 = [Effect.fetchRoomMember s.room_id e.sender_id] := by
  unfold Chat.check_sender Message.get_sender
  by_cases h1 : e.sender_id ∈ s.members.map Member.user_id
  · left; simp [h1]
  · by_cases h2 : e.sender_id ∈ s.in_flight
    · left; simp [h1, h2]
    · right; simp [h1, h2]

/-- `set_fully_read` changes at most the read marker. -/
theorem set_fully_read_shape (s : ChatState) :
    ∃ rt eff, Chat.set_fully_read s = ({ s with read_to := rt }, eff) := by
  unfold Chat.set_fully_read
  by_cases hf : s.focus = true
  · rw [if_pos hf]
    by_cases he : s.messages.head?.map Message.id = s.read_to
    · refine ⟨s.read_to, [], ?_⟩
      simp only [he, if_pos]
    · cases hh : s.messages.head?.map Message.id with
      | none =>
          refine ⟨s.read_to, [], ?_⟩
          simp only [hh, if_neg (hh ▸ he)]
      | some id =>
          refine ⟨some id, [Effect.readTo s.room_id id], ?_⟩
          simp only [hh, if_neg (hh ▸ he)]
  · rw [if_neg hf]
    exact ⟨s.read_to, [], by rfl⟩

/-- The receipts emitted by `set_fully_read` are at most one read report. -/
theorem set_fully_read_effects (s : ChatState) :
    (Chat.set_fully_read s).2 = [] ∨
    ∃ id, (Chat.set_fully_read s).2 = [Effect.readTo s.room_id id] := by
  obtain ⟨rt, eff, hsh⟩ := set_fully_read_shape s
  rw [hsh]
  unfold Chat.set_fully_read at hsh
  by_cases hf : s.focus = true
  · rw [if_pos hf] at hsh
    by_cases he : s.messages.head?.map Message.id = s.read_to
    · rw [if_pos he] at hsh
      left
      exact (congrArg Prod.snd hsh).symm
    · cases hh : s.messages.head?.map Message.id with
      | none =>
          rw [hh] at hsh
          rw [if_neg (hh ▸ he)] at hsh
          left
          exact (congrArg Prod.snd hsh).symm
      | some id =>
          rw [hh] at hsh
          rw [if_neg (hh ▸ he)] at hsh
          right
          exact ⟨id, (congrArg Prod.snd hsh).symm⟩
  · rw [if_neg hf] at hsh
    left
    exact (congrArg Prod.snd hsh).symm

/-- `try_fetch_previous` either does nothing, or — exactly when a cursor is
present, no fetch is in flight and the margin is under 25 — sets the
in-flight flag and emits one backward fetch. -/
theorem try_fetch_chars (s : ChatState) :
    (Chat.try_fetch_previous s = (s, []) ∧
      (s.next_cursor = none ∨ s.fetching = true ∨
        ¬ usizeSub s.messages.length (s.selected.getD 0) < 25)) ∨
    (Chat.try_fetch_previous s =
        ({ s with fetching := true }, [Effect.fetchMessages s.room_id s.next_cursor]) ∧
      s.next_cursor ≠ none ∧ s.fetching = false ∧
      usizeSub s.messages.length (s.selected.getD 0) < 25) := by
  by_cases h1 : s.next_cursor = none ∨ s.fetching = true
  · left
    refine ⟨?_, by tauto⟩
    unfold Chat.try_fetch_previous
    rw [if_pos h1]
  · push_neg at h1
    obtain ⟨hc, hf⟩ := h1
    have hf2 : s.fetching = false := by simpa using hf
    by_cases h2 : usizeSub s.messages.length (s.selected.getD 0) < 25
    · right
      refine ⟨?_, hc, hf2, h2⟩
      unfold Chat.try_fetch_previous
      rw [if_neg (not_or.mpr ⟨hc, hf⟩)]
      simp only [h2, if_true]
    · left
      refine ⟨?_, Or.inr (Or.inr h2)⟩
      unfold Chat.try_fetch_previous
      rw [if_neg (not_or.mpr ⟨hc, hf⟩)]
      simp only [h2, if_false]

/-! ## The store stays sorted by timestamp -/

/-- Indexing the tail shifts `tsAt` by one. -/
theorem tsAt_cons_succ (hd : RawEvent) (tl : List RawEvent) (j : Nat) :
    tsAt (hd :: tl) (j + 1) = tsAt tl j := rfl

/-- In range, `tsAt` reads the stored event. -/
theorem tsAt_eq_get (xs : List RawEvent) (i : Nat) (hi : i < xs.length) :
    tsAt xs i = (xs.get ⟨i, hi⟩).timestamp := by
  simp [tsAt, List.getElem?_eq_getElem hi]

/-- Out of range, `tsAt` reads the placeholder timestamp 0. -/
theorem tsAt_default (xs : List RawEvent) (j : Nat) (h : xs.length ≤ j) :
    tsAt xs j = 0 := by
  simp [tsAt, List.getElem?_eq_none h, dummyEvent]

/-- In a store sorted by `tsLe`, stored timestamps are monotone in the
index. -/
theorem tsAt_mono (xs : List RawEvent) (h : xs.Sorted tsLe) :
    ∀ i j, i ≤ j → j < xs.length → tsAt xs i ≤ tsAt xs j := by
  intro i j hij hj
  rcases Nat.eq_or_lt_of_le hij with rfl | hlt
  · exact le_rfl
  · have hi : i < xs.length := lt_trans hlt hj
    have hrel := List.pairwise_iff_get.mp h ⟨i, hi⟩ ⟨j, hj⟩ hlt
    rw [tsAt_eq_get xs i hi, tsAt_eq_get xs j hj]
    exact hrel

/-- Position invariant of the binary-search loop: on a sorted store, starting
from a window whose outside already brackets `x`, the returned position also
brackets `x` — everything before it has timestamp at most `x`, everything
from it on has timestamp at least `x`. -/
theorem bsInsertGo_spec (xs : List RawEvent) (x : Nat) (hs : xs.Sorted tsLe) :
    ∀ fuel left right, left ≤ right → right ≤ xs.length → right - left ≤ fuel →
    (∀ j, j < left → tsAt xs j ≤ x) →
    (∀ j, right ≤ j → j < xs.length → x ≤ tsAt xs j) →
    left ≤ bsInsertGo xs x fuel left right ∧
    bsInsertGo xs x fuel left right ≤ right ∧
    (∀ j, j < bsInsertGo xs x fuel left right → tsAt xs j ≤ x) ∧
    (∀ j, bsInsertGo xs x fuel left right ≤ j → j < xs.length → x ≤ tsAt xs j) := by
  intro fuel
  induction fuel with
  | zero =>
      intro left right h1 h2 h3 hl hr
      have heq : left = right := by omega
      simp only [bsInsertGo]
      exact ⟨le_rfl, le_of_eq heq, hl, fun j hj hlen => hr j (heq ▸ hj) hlen⟩
  | succ fuel ih =>
      intro left right h1 h2 h3 hl hr
      by_cases hlr : left < right
      · have hd2 : (right - left) / 2 < right - left := Nat.div_lt_self (by omega) (by omega)
        have hmidl : left ≤ left + (right - left) / 2 := Nat.le_add_right _ _
        have hmidr : left + (right - left) / 2 < right := by omega
        have hmidlen : left + (right - left) / 2 < xs.length := lt_of_lt_of_le hmidr h2
        rcases hcmp : compare (tsAt xs (left + (right - left) / 2)) x with _ | _ | _
        · -- probe below x: recurse right
          have hstep : bsInsertGo xs x (fuel + 1) left right
              = bsInsertGo xs x fuel (left + (right - left) / 2 + 1) right := by
            simp only [bsInsertGo, if_pos hlr]
            simp only [tsAt] at hcmp
            simp only [hcmp]
          have hx : tsAt xs (left + (right - left) / 2) < x := Nat.compare_eq_lt.mp hcmp
          have hgo := ih (left + (right - left) / 2 + 1) right (by omega) h2 (by omega)
            (fun j hj => by
              have hjlt := tsAt_mono xs hs j (left + (right - left) / 2) (by omega) hmidlen
              omega)
            hr
          rw [hstep]
          exact ⟨le_trans (by omega) hgo.1, hgo.2.1, hgo.2.2.1, hgo.2.2.2⟩
        · -- probe equal to x: stop here
          have hstep : bsInsertGo xs x (fuel + 1) left right
              = left + (right - left) / 2 := by
            simp only [bsInsertGo, if_pos hlr]
            simp only [tsAt] at hcmp
            simp only [hcmp]
          have hx : tsAt xs (left + (right - left) / 2) = x := Nat.compare_eq_eq.mp hcmp
          rw [hstep]
          refine ⟨hmidl, le_of_lt hmidr, ?_, ?_⟩
          · intro j hj
            by_cases hjlen : j < xs.length
            · have := tsAt_mono xs hs j (left + (right - left) / 2) (by omega) hmidlen
              omega
            · have hz := tsAt_default xs j (by omega)
              omega
          · intro j hj hjlen
            have := tsAt_mono xs hs (left + (right - left) / 2) j hj hjlen
            omega
        · -- probe above x: recurse left
          have hstep : bsInsertGo xs x (fuel + 1) left right
              = bsInsertGo xs x fuel left (left + (right - left) / 2) := by
            simp only [bsInsertGo, if_pos hlr]
            simp only [tsAt] at hcmp
            simp only [hcmp]
          have hx : x < tsAt xs (left + (right - left) / 2) := Nat.compare_eq_gt.mp hcmp
          have hgo := ih left (left + (right - left) / 2) hmidl
            (le_of_lt hmidlen) (by omega) hl
            (fun j hj hjlen => by
              have := tsAt_mono xs hs (left + (right - left) / 2) j hj hjlen
              omega)
          rw [hstep]
          exact ⟨hgo.1, le_trans hgo.2.1 (le_of_lt hmidr), hgo.2.2.1, hgo.2.2.2⟩
      · have hstep : bsInsertGo xs x (fuel + 1) left right = left := by
          simp only [bsInsertGo, if_neg hlr]
        have heq : left = right := by omega
        rw [hstep]
        exact ⟨le_rfl, le_of_eq heq, hl, fun j hj hlen => hr j (heq ▸ hj) hlen⟩

/-- The insertion index brackets the inserted timestamp. -/
theorem insertIdx_spec (xs : List RawEvent) (x : Nat) (hs : xs.Sorted tsLe) :
    insertIdx xs x ≤ xs.length ∧
    (∀ j, j < insertIdx xs x → tsAt xs j ≤ x) ∧
    (∀ j, insertIdx xs x ≤ j → j < xs.length → x ≤ tsAt xs j) := by
  have h := bsInsertGo_spec xs x hs xs.length 0 xs.length (Nat.zero_le _) le_rfl
    (by omega) (fun j hj => by omega) (fun j hj hlen => by omega)
  exact ⟨h.2.1, h.2.2.1, h.2.2.2⟩

/-- Members of the left part of the split have timestamps at most `x`. -/
theorem take_ts_le (xs : List RawEvent) (i : Nat) (x : Nat)
    (hb : ∀ j, j < i → tsAt xs j ≤ x) :
    ∀ a ∈ xs.take i, a.timestamp ≤ x := by
  intro a ha
  obtain ⟨⟨n, hn⟩, rfl⟩ := List.mem_iff_get.mp ha
  have hn2 : n < i := by simp [List.length_take] at hn; omega
  have hn3 : n < xs.length := by simp [List.length_take] at hn; omega
  have hget : (xs.take i).get ⟨n, hn⟩ = xs.get ⟨n, hn3⟩ := by
    simp [List.get_eq_getElem, List.getElem_take]
  rw [hget]
  have hbn := hb n hn2
  rwa [tsAt_eq_get xs n hn3] at hbn

/-- Members of the right part of the split have timestamps at least `x`. -/
theorem drop_ts_ge (xs : List RawEvent) (i : Nat) (x : Nat)
    (ha : ∀ j, i ≤ j → j < xs.length → x ≤ tsAt xs j) :
    ∀ a ∈ xs.drop i, x ≤ a.timestamp := by
  intro a hm
  obtain ⟨⟨n, hn⟩, rfl⟩ := List.mem_iff_get.mp hm
  have hn3 : i + n < xs.length := by simp [List.length_drop] at hn; omega
  have hget : (xs.drop i).get ⟨n, hn⟩ = xs.get ⟨i + n, hn3⟩ := by
    simp [List.get_eq_getElem, List.getElem_drop]
  rw [hget]
  have han := ha (i + n) (by omega) hn3
  rwa [tsAt_eq_get xs (i + n) hn3] at han

/-- Elements left of a split point are at most elements right of it, in a
sorted store. -/
theorem take_drop_cross (xs : List RawEvent) (i : Nat) (h : xs.Pairwise tsLe) :
    ∀ a ∈ xs.take i, ∀ b ∈ xs.drop i, tsLe a b :=
  (List.pairwise_append.mp (by rwa [List.take_append_drop])).2.2

/-- `SortedVec::push` keeps the store sorted by timestamp. -/
theorem sortedVecPush_sorted (xs : List RawEvent) (e : RawEvent)
    (h : xs.Sorted tsLe) : (sortedVecPush xs e).Sorted tsLe := by
  obtain ⟨hlen, hbefore, hafter⟩ := insertIdx_spec xs e.timestamp h
  unfold sortedVecPush
  show List.Pairwise tsLe _
  rw [List.pairwise_append]
  have hp : xs.Pairwise tsLe := h
  refine ⟨hp.sublist (List.take_sublist _ _), ?_, ?_⟩
  · rw [List.pairwise_cons]
    exact ⟨fun b hb => drop_ts_ge xs _ e.timestamp hafter b hb,
      hp.sublist (List.drop_sublist _ _)⟩
  · intro a hamem b hbmem
    rcases List.mem_cons.mp hbmem with rfl | hbdrop
    · exact take_ts_le xs _ b.timestamp hbefore a hamem
    · exact take_drop_cross xs _ hp a hamem b hbdrop

/-- `SortedVec::push` is, up to order, consing the new event on. -/
theorem sortedVecPush_perm (xs : List RawEvent) (e : RawEvent) :
    (sortedVecPush xs e).Perm (e :: xs) := by
  unfold sortedVecPush
  refine List.Perm.trans List.perm_middle ?_
  rw [List.take_append_drop]

/-- Folding pushes over a batch is, up to order, appending the batch. -/
theorem foldl_push_perm : ∀ (l xs : List RawEvent),
    (l.foldl sortedVecPush xs).Perm (xs ++ l) := by
  intro l
  induction l with
  | nil => intro xs; simp
  | cons e t ih =>
      intro xs
      simp only [List.foldl_cons]
      refine List.Perm.trans (ih (sortedVecPush xs e)) ?_
      refine List.Perm.trans ((sortedVecPush_perm xs e).append_right t) ?_
      exact List.perm_middle.symm

/-- Folding pushes preserves sortedness of the store. -/
theorem foldl_push_sorted : ∀ (l xs : List RawEvent), xs.Sorted tsLe →
    (l.foldl sortedVecPush xs).Sorted tsLe := by
  intro l
  induction l with
  | nil => intro xs h; exact h
  | cons e t ih =>
      intro xs h
      simp only [List.foldl_cons]
      exact ih _ (sortedVecPush_sorted xs e h)

/-- A sorted store whose timestamps are pairwise distinct is strictly
sorted. -/
theorem sorted_le_strict (l : List RawEvent) (hs : l.Sorted tsLe)
    (hne : l.Pairwise tsNe) : l.Sorted tsLt := by
  have hand := List.Pairwise.and hs hne
  exact hand.imp (fun hab => lt_of_le_of_ne hab.1 hab.2)

/-- Two strictly sorted stores holding the same events are equal. -/
theorem sorted_strict_unique (l₁ l₂ : List RawEvent) (hp : l₁.Perm l₂)
    (h1 : l₁.Sorted tsLt) (h2 : l₂.Sorted tsLt) : l₁ = l₂ := by
  haveI : IsAntisymm RawEvent tsLt :=
    ⟨fun a b hab hba => absurd (lt_trans hab hba) (lt_irrefl _)⟩
  exact List.eq_of_perm_of_sorted hp h1 h2

/-! ## Field-preservation lemmas -/

@[simp]
theorem check_sender_events (s : ChatState) (e : RawEvent) :
    (Chat.check_sender s e).1.events = s.events := by
  obtain ⟨fl, eff, h⟩ := check_sender_shape s e; rw [h]

@[simp]
theorem check_sender_messages (s : ChatState) (e : RawEvent) :
    (Chat.check_sender s e).1.messages = s.messages := by
  obtain ⟨fl, eff, h⟩ := check_sender_shape s e; rw [h]

@[simp]
theorem check_sender_members (s : ChatState) (e : RawEvent) :
    (Chat.check_sender s e).1.members = s.members := by
  obtain ⟨fl, eff, h⟩ := check_sender_shape s e; rw [h]

@[simp]
theorem check_sender_room_id (s : ChatState) (e : RawEvent) :
    (Chat.check_sender s e).1.room_id = s.room_id := by
  obtain ⟨fl, eff, h⟩ := check_sender_shape s e; rw [h]

@[simp]
theorem check_sender_next_cursor (s : ChatState) (e : RawEvent) :
    (Chat.check_sender s e).1.next_cursor = s.next_cursor := by
  obtain ⟨fl, eff, h⟩ := check_sender_shape s e; rw [h]

@[simp]
theorem check_sender_fetching (s : ChatState) (e : RawEvent) :
    (Chat.check_sender s e).1.fetching = s.fetching := by
  obtain ⟨fl, eff, h⟩ := check_sender_shape s e; rw [h]

@[simp]
theorem check_sender_focus (s : ChatState) (e : RawEvent) :
    (Chat.check_sender s e).1.focus = s.focus := by
  obtain ⟨fl, eff, h⟩ := check_sender_shape s e; rw [h]

@[simp]
theorem check_sender_selected (s : ChatState) (e : RawEvent) :
    (Chat.check_sender s e).1.selected = s.selected := by
  obtain ⟨fl, eff, h⟩ := check_sender_shape s e; rw [h]

@[simp]
theorem check_sender_read_to (s : ChatState) (e : RawEvent) :
    (Chat.check_sender s e).1.read_to = s.read_to := by
  obtain ⟨fl, eff, h⟩ := check_sender_shape s e; rw [h]

@[simp]
theorem set_fully_read_events (s : ChatState) :
    (Chat.set_fully_read s).1.events = s.events := by
  obtain ⟨rt, eff, h⟩ := set_fully_read_shape s; rw [h]

@[simp]
theorem set_fully_read_messages (s : ChatState) :
    (Chat.set_fully_read s).1.messages = s.messages := by
  obtain ⟨rt, eff, h⟩ := set_fully_read_shape s; rw [h]

@[simp]
theorem set_fully_read_members (s : ChatState) :
    (Chat.set_fully_read s).1.members = s.members := by
  obtain ⟨rt, eff, h⟩ := set_fully_read_shape s; rw [h]

@[simp]
theorem set_fully_read_room_id (s : ChatState) :
    (Chat.set_fully_read s).1.room_id = s.room_id := by
  obtain ⟨rt, eff, h⟩ := set_fully_read_shape s; rw [h]

@[simp]
theorem set_fully_read_next_cursor (s : ChatState) :
    (Chat.set_fully_read s).1.next_cursor = s.next_cursor := by
  obtain ⟨rt, eff, h⟩ := set_fully_read_shape s; rw [h]

@[simp]
theorem set_fully_read_fetching (s : ChatState) :
    (Chat.set_fully_read s).1.fetching = s.fetching := by
  obtain ⟨rt, eff, h⟩ := set_fully_read_shape s; rw [h]

@[simp]
theorem set_fully_read_focus (s : ChatState) :
    (Chat.set_fully_read s).1.focus = s.focus := by
  obtain ⟨rt, eff, h⟩ := set_fully_read_shape s; rw [h]

@[simp]
theorem set_fully_read_selected (s : ChatState) :
    (Chat.set_fully_read s).1.selected = s.selected := by
  obtain ⟨rt, eff, h⟩ := set_fully_read_shape s; rw [h]

@[simp]
theorem set_fully_read_in_flight (s : ChatState) :
    (Chat.set_fully_read s).1.in_flight = s.in_flight := by
  obtain ⟨rt, eff, h⟩ := set_fully_read_shape s; rw [h]

/-- `try_fetch_previous` changes at most the in-flight flag. -/
theorem try_fetch_shape (s : ChatState) :
    ∃ f eff, Chat.try_fetch_previous s = ({ s with fetching := f }, eff) := by
  rcases try_fetch_chars s with ⟨heq, _⟩ | ⟨heq, _⟩
  · exact ⟨s.fetching, [], by rw [heq]⟩
  · exact ⟨true, [Effect.fetchMessages s.room_id s.next_cursor], by rw [heq]⟩

@[simp]
theorem try_fetch_events (s : ChatState) :
    (Chat.try_fetch_previous s).1.events = s.events := by
  obtain ⟨f, eff, h⟩ := try_fetch_shape s; rw [h]

@[simp]
theorem try_fetch_messages (s : ChatState) :
    (Chat.try_fetch_previous s).1.messages = s.messages := by
  obtain ⟨f, eff, h⟩ := try_fetch_shape s; rw [h]

@[simp]
theorem try_fetch_members (s : ChatState) :
    (Chat.try_fetch_previous s).1.members = s.members := by
  obtain ⟨f, eff, h⟩ := try_fetch_shape s; rw [h]

@[simp]
theorem try_fetch_room_id (s : ChatState) :
    (Chat.try_fetch_previous s).1.room_id = s.room_id := by
  obtain ⟨f, eff, h⟩ := try_fetch_shape s; rw [h]

@[simp]
theorem try_fetch_next_cursor (s : ChatState) :
    (Chat.try_fetch_previous s).1.next_cursor = s.next_cursor := by
  obtain ⟨f, eff, h⟩ := try_fetch_shape s; rw [h]

@[simp]
theorem try_fetch_selected (s : ChatState) :
    (Chat.try_fetch_previous s).1.selected = s.selected := by
  obtain ⟨f, eff, h⟩ := try_fetch_shape s; rw [h]

/-- Fields of `timeline_event` on an event of the right room: the event is
pushed into the sorted store, the members are untouched and the message list
is rebuilt from the new store. -/
theorem timeline_event_fields (s : ChatState) (e : RawEvent)
    (h : e.room_id = s.room_id) :
    (Chat.timeline_event s e).1.events = sortedVecPush s.events e ∧
    (Chat.timeline_event s e).1.members = s.members ∧
    (Chat.timeline_event s e).1.room_id = s.room_id ∧
    (Chat.timeline_event s e).1.messages
      = make_message_list (sortedVecPush s.events e) s.members := by
  refine ⟨?_, ?_, ?_, ?_⟩ <;>
    simp [Chat.timeline_event, h, Chat.dedupe_events]

/-- Fields of `ingest_all` over matching-room events: the store is the fold of
pushes, the members are untouched, and — once at least one event arrived —
the message list is the rebuild from the final store. -/
theorem ingest_all_fields : ∀ (l : List RawEvent) (s : ChatState),
    (∀ e ∈ l, e.room_id = s.room_id) →
    (Chat.ingest_all s l).room_id = s.room_id ∧
    (Chat.ingest_all s l).members = s.members ∧
    (Chat.ingest_all s l).events = l.foldl sortedVecPush s.events ∧
    (l ≠ [] → (Chat.ingest_all s l).messages
      = make_message_list (l.foldl sortedVecPush s.events) s.members) := by
  intro l
  induction l with
  | nil => intro s _; exact ⟨rfl, rfl, rfl, fun hne => absurd rfl hne⟩
  | cons e t ih =>
      intro s hroom
      have he : e.room_id = s.room_id := hroom e (List.mem_cons_self e t)
      obtain ⟨f1, f2, f3, f4⟩ := timeline_event_fields s e he
      have hstep : Chat.ingest_all s (e :: t)
          = Chat.ingest_all (Chat.timeline_event s e).1 t := rfl
      have hroom2 : ∀ x ∈ t, x.room_id = (Chat.timeline_event s e).1.room_id := by
        intro x hx; rw [f3]; exact hroom x (List.mem_cons_of_mem e hx)
      obtain ⟨g1, g2, g3, g4⟩ := ih (Chat.timeline_event s e).1 hroom2
      rw [hstep]
      refine ⟨by rw [g1, f3], by rw [g2, f2], ?_, ?_⟩
      · rw [g3, f1]
        simp [List.foldl_cons]
      · intro _
        cases t with
        | nil =>
            simpa [Chat.ingest_all, List.foldl_cons] using f4
        | cons y ys =>
            have hmsg := g4 (by simp)
            rw [hmsg, f1, f2]
            simp [List.foldl_cons]

/-- The ingest loop of `batch_event` only pushes events and notes senders: all
other state fields ride through, and the store becomes the fold of pushes. -/
theorem push_batch_fold : ∀ (l : List RawEvent) (acc : ChatState × List Effect),
    (l.foldl Chat.push_batch acc).1.events = l.foldl sortedVecPush acc.1.events ∧
    (l.foldl Chat.push_batch acc).1.messages = acc.1.messages ∧
    (l.foldl Chat.push_batch acc).1.members = acc.1.members ∧
    (l.foldl Chat.push_batch acc).1.room_id = acc.1.room_id ∧
    (l.foldl Chat.push_batch acc).1.next_cursor = acc.1.next_cursor ∧
    (l.foldl Chat.push_batch acc).1.fetching = acc.1.fetching ∧
    (l.foldl Chat.push_batch acc).1.focus = acc.1.focus ∧
    (l.foldl Chat.push_batch acc).1.selected = acc.1.selected ∧
    (l.foldl Chat.push_batch acc).1.read_to = acc.1.read_to := by
  intro l
  induction l with
  | nil => intro acc; exact ⟨rfl, rfl, rfl, rfl, rfl, rfl, rfl, rfl, rfl⟩
  | cons e t ih =>
      intro acc
      simp only [List.foldl_cons]
      obtain ⟨g1, g2, g3, g4, g5, g6, g7, g8, g9⟩ := ih (Chat.push_batch acc e)
      refine ⟨?_, ?_, ?_, ?_, ?_, ?_, ?_, ?_, ?_⟩
      · rw [g1]; simp [Chat.push_batch]
      · rw [g2]; simp [Chat.push_batch]
      · rw [g3]; simp [Chat.push_batch]
      · rw [g4]; simp [Chat.push_batch]
      · rw [g5]; simp [Chat.push_batch]
      · rw [g6]; simp [Chat.push_batch]
      · rw [g7]; simp [Chat.push_batch]
      · rw [g8]; simp [Chat.push_batch]
      · rw [g9]; simp [Chat.push_batch]

/-- The ingest loop of `batch_event` never emits a backward fetch. -/
theorem push_batch_no_fetch : ∀ (l : List RawEvent) (acc : ChatState × List Effect)
    (rm : Nat) (c : Option String),
    Effect.fetchMessages rm c ∉ acc.2 →
    Effect.fetchMessages rm c ∉ (l.foldl Chat.push_batch acc).2 := by
  intro l
  induction l with
  | nil => intro acc rm c h; exact h
  | cons e t ih =>
      intro acc rm c h
      simp only [List.foldl_cons]
      apply ih
      rcases check_sender_effects acc.1 e with he | he <;>
        simp [Chat.push_batch, he, h]

/-- `batch_event` on a matching batch is: reach the pre-check state, then run
the progress-gated backward-fetch check.  Definitional unfolding of
`Chat.batch_event`. -/
theorem batch_event_eq (s : ChatState) (b : Batch) (h : b.room = s.room_id) :
    Chat.batch_event s b =
      (if (batchMid s b).messages.length > s.messages.length then
         ((Chat.try_fetch_previous (batchMid s b)).1,
          batchEffs s b ++ (Chat.try_fetch_previous (batchMid s b)).2)
       else (batchMid s b, batchEffs s b)) := by
  unfold Chat.batch_event batchMid batchEffs
  rw [if_pos h]

/-- The pre-check state of `batch_event`: cursor stored, flag cleared, store
extended by the batch, message list rebuilt from it. -/
theorem batchMid_fields (s : ChatState) (b : Batch) :
    (batchMid s b).next_cursor = b.cursor ∧
    (batchMid s b).fetching = false ∧
    (batchMid s b).room_id = s.room_id ∧
    (batchMid s b).events = b.events.foldl sortedVecPush s.events ∧
    (batchMid s b).messages
      = make_message_list (b.events.foldl sortedVecPush s.events) s.members := by
  obtain ⟨p1, p2, p3, p4, p5, p6, p7, p8, p9⟩ :=
    push_batch_fold b.events ({ s with next_cursor := b.cursor }, [])
  refine ⟨?_, ?_, ?_, ?_, ?_⟩
  · simp [batchMid, apply_ite ChatState.next_cursor, Chat.dedupe_events, p5]
  · simp [batchMid, apply_ite ChatState.fetching, Chat.dedupe_events]
  · simp [batchMid, apply_ite ChatState.room_id, Chat.dedupe_events, p4]
  · simp [batchMid, apply_ite ChatState.events, Chat.dedupe_events, p1]
  · simp [batchMid, apply_ite ChatState.messages, Chat.dedupe_events, p1, p3]

/-- The pre-check effects of `batch_event` contain no backward fetch. -/
theorem batchEffs_no_fetch (s : ChatState) (b : Batch) (rm : Nat) (c : Option String) :
    Effect.fetchMessages rm c ∉ batchEffs s b := by
  unfold batchEffs
  simp only [List.mem_append, not_or]
  constructor
  · exact push_batch_no_fetch b.events ({ s with next_cursor := b.cursor }, []) rm c
      (by simp)
  · rcases set_fully_read_effects (
      { Chat.dedupe_events (b.events.foldl Chat.push_batch
          ({ s with next_cursor := b.cursor }, [])).1 with
        messages := make_message_list
          (Chat.dedupe_events (b.events.foldl Chat.push_batch
            ({ s with next_cursor := b.cursor }, [])).1).events
          (Chat.dedupe_events (b.events.foldl Chat.push_batch
            ({ s with next_cursor := b.cursor }, [])).1).members,
        fetching := false }) with he | ⟨id, he⟩ <;> rw [he] <;> simp

/-- `room_member_event` on a matching room: drops the id from the in-flight
list and appends the member; emits nothing. -/
theorem room_member_event_match (s : ChatState) (room : Nat) (m : Member)
    (h : s.room_id = room) :
    (Chat.room_member_event s room m).1.members = s.members ++ [m] ∧
    (Chat.room_member_event s room m).1.in_flight
      = s.in_flight.filter (fun id => id != m.user_id) ∧
    (Chat.room_member_event s room m).1.room_id = s.room_id ∧
    (Chat.room_member_event s room m).2 = [] := by
  unfold Chat.room_member_event
  rw [if_pos h]
  exact ⟨rfl, rfl, rfl, rfl⟩

/-! ## Claim theorems -/

/-- Claim C10: a timeline event, fetch batch or member-lookup result whose
room id differs from the chat room id leaves the whole engine state unchanged
and emits nothing. -/
theorem c10_room_mismatch_frame (s : ChatState) (e : RawEvent) (b : Batch)
    (room : Nat) (m : Member)
    (he : e.room_id ≠ s.room_id) (hb : b.room ≠ s.room_id)
    (hm : s.room_id ≠ room) :
    Chat.timeline_event s e = (s, []) ∧
    Chat.batch_event s b = (s, []) ∧
    Chat.room_member_event s room m = (s, []) := by
  refine ⟨?_, ?_, ?_⟩
  · unfold Chat.timeline_event; rw [if_neg he]
  · unfold Chat.batch_event; rw [if_neg hb]
  · unfold Chat.room_member_event; rw [if_neg hm]

/-- Witness for C10 at a concrete state: the mismatching inputs are rejected
without any state change. -/
theorem c10_room_mismatch_frame_witness :
    Chat.timeline_event (Chat.new 0).1
      { id := 5, room_id := 1, timestamp := 3, sender_id := 9,
        kind := EventKind.rootMessage "x" } = ((Chat.new 0).1, []) ∧
    Chat.batch_event (Chat.new 0).1 { room := 1, events := [], cursor := none }
      = ((Chat.new 0).1, []) ∧
    Chat.room_member_event (Chat.new 0).1 1 { user_id := 2, display_name := none }
      = ((Chat.new 0).1, []) :=
  c10_room_mismatch_frame (Chat.new 0).1
    { id := 5, room_id := 1, timestamp := 3, sender_id := 9,
      kind := EventKind.rootMessage "x" }
    { room := 1, events := [], cursor := none } 1
    { user_id := 2, display_name := none }
    (by decide) (by decide) (by decide)

/-- Claim C4: `try_fetch_previous` issues a backward fetch precisely when a
cursor is present, no fetch is in flight, and the margin between the message
count and the selection index is under 25; issuing sets the in-flight flag,
and with the flag already set the call is a strict no-op, so a second
in-flight fetch is never started. -/
theorem c4_pagination_fetch_guard (s : ChatState) :
    ((∃ c, Effect.fetchMessages s.room_id c ∈ (Chat.try_fetch_previous s).2) ↔
      (s.next_cursor ≠ none ∧ s.fetching = false ∧
        usizeSub s.messages.length (s.selected.getD 0) < 25)) ∧
    ((Chat.try_fetch_previous s).2 ≠ [] →
      (Chat.try_fetch_previous s).1.fetching = true) ∧
    (s.fetching = true → Chat.try_fetch_previous s = (s, [])) := by
  rcases try_fetch_chars s with ⟨heq, hside⟩ | ⟨heq, hc, hf, hb⟩
  · rw [heq]
    refine ⟨?_, ?_, ?_⟩
    · constructor
      · rintro ⟨c, hmem⟩; exact absurd hmem (List.not_mem_nil _)
      · rintro ⟨h1, h2, h3⟩
        rcases hside with hx | hx | hx
        · exact absurd hx h1
        · rw [hx] at h2; cases h2
        · exact absurd h3 hx
    · intro hne; exact absurd rfl hne
    · intro _; rfl
  · rw [heq]
    refine ⟨?_, ?_, ?_⟩
    · constructor
      · intro _; exact ⟨hc, hf, hb⟩
      · intro _; exact ⟨s.next_cursor, by simp⟩
    · intro _; rfl
    · intro hft; rw [hft] at hf; cases hf

/-- Witness for C4 at a concrete state with a cursor, a cleared flag and a
small margin: the fetch fires. -/
theorem c4_pagination_fetch_guard_witness :
    ((∃ c, Effect.fetchMessages
        ({ (Chat.new 0).1 with next_cursor := some "t", fetching := false }).room_id c ∈
        (Chat.try_fetch_previous
          { (Chat.new 0).1 with next_cursor := some "t", fetching := false }).2) ↔
      (({ (Chat.new 0).1 with next_cursor := some "t", fetching := false }).next_cursor ≠ none ∧
        ({ (Chat.new 0).1 with next_cursor := some "t", fetching := false }).fetching = false ∧
        usizeSub
          ({ (Chat.new 0).1 with next_cursor := some "t", fetching := false }).messages.length
          (({ (Chat.new 0).1 with next_cursor := some "t", fetching := false }).selected.getD 0)
          < 25)) ∧
    ((Chat.try_fetch_previous
        { (Chat.new 0).1 with next_cursor := some "t", fetching := false }).2 ≠ [] →
      (Chat.try_fetch_previous
        { (Chat.new 0).1 with next_cursor := some "t", fetching := false }).1.fetching = true) ∧
    (({ (Chat.new 0).1 with next_cursor := some "t", fetching := false }).fetching = true →
      Chat.try_fetch_previous
        { (Chat.new 0).1 with next_cursor := some "t", fetching := false }
        = ({ (Chat.new 0).1 with next_cursor := some "t", fetching := false }, [])) :=
  c4_pagination_fetch_guard { (Chat.new 0).1 with next_cursor := some "t", fetching := false }

/-- Claim C7, amended: `room_member_event` removes the id from the in-flight
list but appends the member unconditionally instead of overwriting, so
resolving the same member twice leaves a duplicate entry in the member list
while the in-flight list is the same as after resolving once. -/
theorem c7_member_resolution_appends (s : ChatState) (room : Nat) (m : Member)
    (h : s.room_id = room) :
    (Chat.room_member_event s room m).1.members = s.members ++ [m] ∧
    (Chat.room_member_event s room m).1.in_flight
      = s.in_flight.filter (fun id => id != m.user_id) ∧
    (Chat.room_member_event (Chat.room_member_event s room m).1 room m).1.members
      = s.members ++ [m, m] ∧
    (Chat.room_member_event (Chat.room_member_event s room m).1 room m).1.in_flight
      = (Chat.room_member_event s room m).1.in_flight := by
  obtain ⟨m1, i1, r1, _⟩ := room_member_event_match s room m h
  obtain ⟨m2, i2, _, _⟩ :=
    room_member_event_match (Chat.room_member_event s room m).1 room m (by rw [r1, h])
  refine ⟨m1, i1, ?_, ?_⟩
  · rw [m2, m1]
    simp
  · rw [i2, i1]
    simp [List.filter_filter]

/-- Witness for C7 at a concrete state: resolving the member twice appends
two copies, and the in-flight list is emptied once. -/
theorem c7_member_resolution_appends_witness :
    (Chat.room_member_event
        { (Chat.new 0).1 with in_flight := [7] } 0
        { user_id := 7, display_name := some "Ann" }).1.members
      = ({ (Chat.new 0).1 with in_flight := [7] } : ChatState).members
          ++ [{ user_id := 7, display_name := some "Ann" }] ∧
    (Chat.room_member_event
        { (Chat.new 0).1 with in_flight := [7] } 0
        { user_id := 7, display_name := some "Ann" }).1.in_flight
      = ({ (Chat.new 0).1 with in_flight := [7] } : ChatState).in_flight.filter
          (fun id => id != 7) ∧
    (Chat.room_member_event (Chat.room_member_event
        { (Chat.new 0).1 with in_flight := [7] } 0
        { user_id := 7, display_name := some "Ann" }).1 0
        { user_id := 7, display_name := some "Ann" }).1.members
      = ({ (Chat.new 0).1 with in_flight := [7] } : ChatState).members
          ++ [{ user_id := 7, display_name := some "Ann" },
              { user_id := 7, display_name := some "Ann" }] ∧
    (Chat.room_member_event (Chat.room_member_event
        { (Chat.new 0).1 with in_flight := [7] } 0
        { user_id := 7, display_name := some "Ann" }).1 0
        { user_id := 7, display_name := some "Ann" }).1.in_flight
      = (Chat.room_member_event
        { (Chat.new 0).1 with in_flight := [7] } 0
        { user_id := 7, display_name := some "Ann" }).1.in_flight :=
  c7_member_resolution_appends { (Chat.new 0).1 with in_flight := [7] } 0
    { user_id := 7, display_name := some "Ann" } (by decide)

/-- Counterexample for C7 as stated: resolving an already-known member again
does not overwrite — the member list after two resolves differs from the list
after one (the entry is duplicated). -/
theorem c7_counterexample :
    (Chat.room_member_event (Chat.room_member_event (Chat.new 0).1 0
        { user_id := 7, display_name := some "Ann" }).1 0
        { user_id := 7, display_name := some "Ann" }).1.members
      ≠ (Chat.room_member_event (Chat.new 0).1 0
        { user_id := 7, display_name := some "Ann" }).1.members ∧
    (Chat.room_member_event (Chat.new 0).1 0
        { user_id := 7, display_name := some "Ann" }).1.members
      = [{ user_id := 7, display_name := some "Ann" }] ∧
    (Chat.room_member_event (Chat.room_member_event (Chat.new 0).1 0
        { user_id := 7, display_name := some "Ann" }).1 0
        { user_id := 7, display_name := some "Ann" }).1.members
      = [{ user_id := 7, display_name := some "Ann" },
         { user_id := 7, display_name := some "Ann" }] := by
  refine ⟨?_, ?_, ?_⟩ <;> decide

/-- Claim C8: a read receipt is emitted only while focused with an existing
head id that differs from the stored marker; emitting updates the marker at
once, and any later list with the same head id emits nothing further. -/
theorem c8_read_marker_gate (s : ChatState) :
    ((Chat.set_fully_read s).2 ≠ [] →
      s.focus = true ∧
      ∃ id, s.messages.head?.map Message.id = some id ∧ s.read_to ≠ some id ∧
        (Chat.set_fully_read s).2 = [Effect.readTo s.room_id id] ∧
        (Chat.set_fully_read s).1.read_to = some id) ∧
    (s.focus = false → Chat.set_fully_read s = (s, [])) ∧
    (s.messages.head?.map Message.id = s.read_to → Chat.set_fully_read s = (s, [])) ∧
    (∀ msgs2 : List Message,
      msgs2.head?.map Message.id = s.messages.head?.map Message.id →
      (Chat.set_fully_read
        { (Chat.set_fully_read s).1 with messages := msgs2 }).2 = []) := by
  by_cases hf : s.focus = true
  · by_cases he : s.messages.head?.map Message.id = s.read_to
    · have heq : Chat.set_fully_read s = (s, []) := by
        unfold Chat.set_fully_read
        rw [if_pos hf, if_pos he]
      rw [heq]
      refine ⟨fun hne => absurd rfl hne, fun _ => rfl, fun _ => rfl, ?_⟩
      intro msgs2 hh2
      unfold Chat.set_fully_read
      dsimp only
      rw [if_pos hf, hh2, if_pos he]
    · cases hh : s.messages.head?.map Message.id with
      | none =>
          have heq : Chat.set_fully_read s = (s, []) := by
            unfold Chat.set_fully_read
            rw [if_pos hf, hh, if_neg (hh ▸ he)]
          rw [heq]
          refine ⟨fun hne => absurd rfl hne, fun _ => rfl,
            fun hx => absurd hx (hh ▸ he), ?_⟩
          intro msgs2 hh2
          unfold Chat.set_fully_read
          dsimp only
          rw [if_pos hf, hh2]
          by_cases he2 : (none : Option Nat) = s.read_to
          · rw [if_pos he2]
          · rw [if_neg he2]
      | some id =>
          have heq : Chat.set_fully_read s
              = ({ s with read_to := some id }, [Effect.readTo s.room_id id]) := by
            unfold Chat.set_fully_read
            rw [if_pos hf, hh, if_neg (hh ▸ he)]
          rw [heq]
          refine ⟨?_, ?_, ?_, ?_⟩
          · intro _
            exact ⟨hf, id, rfl, fun hx => he (hh.trans hx.symm), rfl, rfl⟩
          · intro hx
            rw [hx] at hf
            cases hf
          · intro hx
            exact absurd (hh.trans hx) he
          intro msgs2 hh2
          unfold Chat.set_fully_read
          dsimp only
          rw [if_pos hf, hh2, if_pos rfl]
  · have heq : Chat.set_fully_read s = (s, []) := by
      unfold Chat.set_fully_read
      rw [if_neg hf]
    rw [heq]
    refine ⟨fun hne => absurd rfl hne, fun _ => rfl, fun _ => rfl, ?_⟩
    intro msgs2 _
    unfold Chat.set_fully_read
    dsimp only
    rw [if_neg hf]

/-- Claim C5: noting a sender is a no-op when the id is already known or
already in flight; otherwise it appends the id to the in-flight list and
emits exactly one lookup.  Two notes of the same unresolved id yield exactly
one outstanding lookup and one in-flight entry, and both `check_sender` and
`room_member_event` preserve distinctness of the in-flight list. -/
theorem c5_member_lookup_dedup (s : ChatState) (e : RawEvent) :
    ((e.sender_id ∈ s.members.map Member.user_id ∨ e.sender_id ∈ s.in_flight) →
      Chat.check_sender s e = (s, [])) ∧
    (¬(e.sender_id ∈ s.members.map Member.user_id ∨ e.sender_id ∈ s.in_flight) →
      (Chat.check_sender s e).1
          = { s with in_flight := s.in_flight ++ [e.sender_id] } ∧
      (Chat.check_sender s e).2 = [Effect.fetchRoomMember s.room_id e.sender_id]) ∧
    (¬(e.sender_id ∈ s.members.map Member.user_id ∨ e.sender_id ∈ s.in_flight) →
      ((Chat.check_sender s e).2
          ++ (Chat.check_sender (Chat.check_sender s e).1 e).2).count
        (Effect.fetchRoomMember s.room_id e.sender_id) = 1 ∧
      (Chat.check_sender (Chat.check_sender s e).1 e).1.in_flight.count e.sender_id
        = s.in_flight.count e.sender_id + 1) ∧
    (s.in_flight.Nodup → (Chat.check_sender s e).1.in_flight.Nodup) ∧
    (∀ (room : Nat) (m : Member), s.in_flight.Nodup →
      (Chat.room_member_event s room m).1.in_flight.Nodup) := by
  have hcase :
      (e.sender_id ∈ s.members.map Member.user_id ∨ e.sender_id ∈ s.in_flight) ∨
      ¬(e.sender_id ∈ s.members.map Member.user_id ∨ e.sender_id ∈ s.in_flight) :=
    Classical.em _
  have hnodup_rme : ∀ (room : Nat) (m : Member), s.in_flight.Nodup →
      (Chat.room_member_event s room m).1.in_flight.Nodup := by
    intro room m hn
    unfold Chat.room_member_event
    by_cases hr : s.room_id = room
    · rw [if_pos hr]
      exact hn.filter _
    · rw [if_neg hr]
      exact hn
  rcases hcase with hin | hout
  · have heq : Chat.check_sender s e = (s, []) := by
      unfold Chat.check_sender Message.get_sender
      rcases hin with h1 | h2
      · simp [h1]
      · by_cases h1 : e.sender_id ∈ s.members.map Member.user_id
        · simp [h1]
        · simp [h1, h2]
    refine ⟨fun _ => heq, fun hx => absurd hin hx, fun hx => absurd hin hx,
      fun hn => by rw [heq]; exact hn, hnodup_rme⟩
  · push_neg at hout
    obtain ⟨h1, h2⟩ := hout
    have heq : Chat.check_sender s e
        = ({ s with in_flight := s.in_flight ++ [e.sender_id] },
           [Effect.fetchRoomMember s.room_id e.sender_id]) := by
      unfold Chat.check_sender Message.get_sender
      simp [h1, h2]
    have heq2 : Chat.check_sender (Chat.check_sender s e).1 e
        = ((Chat.check_sender s e).1, []) := by
      rw [heq]
      unfold Chat.check_sender Message.get_sender
      simp [h1]
    refine ⟨fun hx => absurd hx (by rw [not_or]; exact ⟨h1, h2⟩),
      fun _ => ⟨by rw [heq], by rw [heq]⟩, fun _ => ⟨?_, ?_⟩, ?_, hnodup_rme⟩
    · rw [heq2, heq]
      simp
    · rw [heq2, heq]
      simp [List.count_append, List.count_eq_zero]
    · intro hn
      rw [heq]
      simp [List.nodup_append, h2, hn]

/-- Witness for C5 at a fresh state: noting an unknown sender records it in
flight and emits one lookup. -/
theorem c5_member_lookup_dedup_witness :
    ¬((9 : Nat) ∈ (Chat.new 0).1.members.map Member.user_id ∨
        (9 : Nat) ∈ (Chat.new 0).1.in_flight) ∧
    ((Chat.check_sender (Chat.new 0).1
        { id := 4, room_id := 0, timestamp := 2, sender_id := 9,
          kind := EventKind.membership "join" }).1
      = { (Chat.new 0).1 with in_flight := (Chat.new 0).1.in_flight ++ [9] } ∧
     (Chat.check_sender (Chat.new 0).1
        { id := 4, room_id := 0, timestamp := 2, sender_id := 9,
          kind := EventKind.membership "join" }).2
      = [Effect.fetchRoomMember (Chat.new 0).1.room_id 9]) :=
  ⟨by decide,
   (c5_member_lookup_dedup (Chat.new 0).1
      { id := 4, room_id := 0, timestamp := 2, sender_id := 9,
        kind := EventKind.membership "join" }).2.1 (by decide)⟩

/-- Witness for C8 at a one-message state: the receipt is emitted once, and a
second list change with the same head emits nothing. -/
theorem c8_read_marker_gate_witness :
    (Chat.set_fully_read { (Chat.new 0).1 with messages :=
        [{ id := 3, sender_id := 1, sender := "u", body := "hi",
           edited := false, reactions := [] }] }).2 ≠ [] ∧
    (Chat.set_fully_read
      { (Chat.set_fully_read { (Chat.new 0).1 with messages :=
          [{ id := 3, sender_id := 1, sender := "u", body := "hi",
             edited := false, reactions := [] }] }).1 with messages :=
        [{ id := 3, sender_id := 1, sender := "u", body := "hi",
           edited := false, reactions := [] }] }).2 = [] :=
  ⟨by decide,
   (c8_read_marker_gate { (Chat.new 0).1 with messages :=
      [{ id := 3, sender_id := 1, sender := "u", body := "hi",
         edited := false, reactions := [] }] }).2.2.2
     [{ id := 3, sender_id := 1, sender := "u", body := "hi",
        edited := false, reactions := [] }] rfl⟩

/-- Counterexample for C1 as stated: two root events with equal timestamps
ingested in the two arrival orders give different assembled message lists
(the store has no tie-break, so ties keep reverse arrival order). -/
theorem c1_counterexample :
    ([{ id := 1, room_id := 0, timestamp := 5, sender_id := 10,
        kind := EventKind.rootMessage "a" },
      { id := 2, room_id := 0, timestamp := 5, sender_id := 10,
        kind := EventKind.rootMessage "b" }] : List RawEvent).Perm
      [{ id := 2, room_id := 0, timestamp := 5, sender_id := 10,
         kind := EventKind.rootMessage "b" },
       { id := 1, room_id := 0, timestamp := 5, sender_id := 10,
         kind := EventKind.rootMessage "a" }] ∧
    (Chat.ingest_all (Chat.new 0).1
      [{ id := 1, room_id := 0, timestamp := 5, sender_id := 10,
         kind := EventKind.rootMessage "a" },
       { id := 2, room_id := 0, timestamp := 5, sender_id := 10,
         kind := EventKind.rootMessage "b" }]).messages
      ≠ (Chat.ingest_all (Chat.new 0).1
        [{ id := 2, room_id := 0, timestamp := 5, sender_id := 10,
           kind := EventKind.rootMessage "b" },
         { id := 1, room_id := 0, timestamp := 5, sender_id := 10,
           kind := EventKind.rootMessage "a" }]).messages := by
  refine ⟨?_, ?_⟩ <;> decide

/-- Counterexample for C6 as stated: after ingesting two equal-timestamp
events in ascending id order, the store holds them with ids in descending
order — ties are not ordered by event id. -/
theorem c6_counterexample :
    ((Chat.ingest_all (Chat.new 0).1
      [{ id := 1, room_id := 0, timestamp := 5, sender_id := 10,
         kind := EventKind.rootMessage "a" },
       { id := 2, room_id := 0, timestamp := 5, sender_id := 10,
         kind := EventKind.rootMessage "b" }]).events.map RawEvent.id = [2, 1]) ∧
    ¬ (Chat.ingest_all (Chat.new 0).1
      [{ id := 1, room_id := 0, timestamp := 5, sender_id := 10,
         kind := EventKind.rootMessage "a" },
       { id := 2, room_id := 0, timestamp := 5, sender_id := 10,
         kind := EventKind.rootMessage "b" }]).events.Pairwise tsIdLe := by
  refine ⟨?_, ?_⟩ <;> decide

/-- Evaluation for C2 at the failing input: ingesting the same root event
twice stores it twice and renders it twice — the event store does not hold at
most one entry per id, and the assembled list is not the same as after a
single ingest. -/
theorem c2_duplicate_ingest_eval :
    ((Chat.timeline_event (Chat.timeline_event (Chat.new 0).1
        { id := 7, room_id := 0, timestamp := 1, sender_id := 10,
          kind := EventKind.rootMessage "hi" }).1
        { id := 7, room_id := 0, timestamp := 1, sender_id := 10,
          kind := EventKind.rootMessage "hi" }).1.events.map RawEvent.id = [7, 7]) ∧
    ((Chat.timeline_event (Chat.timeline_event (Chat.new 0).1
        { id := 7, room_id := 0, timestamp := 1, sender_id := 10,
          kind := EventKind.rootMessage "hi" }).1
        { id := 7, room_id := 0, timestamp := 1, sender_id := 10,
          kind := EventKind.rootMessage "hi" }).1.messages.map Message.id = [7, 7]) ∧
    ((Chat.timeline_event (Chat.new 0).1
        { id := 7, room_id := 0, timestamp := 1, sender_id := 10,
          kind := EventKind.rootMessage "hi" }).1.messages.map Message.id = [7]) ∧
    (Chat.timeline_event (Chat.timeline_event (Chat.new 0).1
        { id := 7, room_id := 0, timestamp := 1, sender_id := 10,
          kind := EventKind.rootMessage "hi" }).1
        { id := 7, room_id := 0, timestamp := 1, sender_id := 10,
          kind := EventKind.rootMessage "hi" }).1.messages
      ≠ (Chat.timeline_event (Chat.new 0).1
        { id := 7, room_id := 0, timestamp := 1, sender_id := 10,
          kind := EventKind.rootMessage "hi" }).1.messages := by
  refine ⟨?_, ?_, ?_, ?_⟩ <;> decide

/-- Evaluation for C9 at the failing input: an empty first batch with a
cursor leaves an empty list with the selection at `some 0` (reachable from a
fresh room); `next` then computes `messages.len() - 1` on length 0, a
wrapping underflow, and moves the selection to `some 1` — outside any valid
index of the empty list — instead of clamping. -/
theorem c9_next_underflow_eval :
    ((Chat.batch_event (Chat.new 0).1
        { room := 0, events := [], cursor := some "t" }).1.messages = []) ∧
    ((Chat.batch_event (Chat.new 0).1
        { room := 0, events := [], cursor := some "t" }).1.selected = some 0) ∧
    ((Chat.next (Chat.batch_event (Chat.new 0).1
        { room := 0, events := [], cursor := some "t" }).1).selected = some 1) ∧
    usizeSub 0 1 = U64 - 1 ∧
    ¬ (1 : Nat) < (Chat.batch_event (Chat.new 0).1
        { room := 0, events := [], cursor := some "t" }).1.messages.length := by
  refine ⟨?_, ?_, ?_, ?_, ?_⟩ <;> decide

/-- Claim C6, amended: every entrypoint keeps the store in ascending
timestamp order (and a fresh room starts sorted); equal timestamps carry no
id tie-break, so ties sit in arrival-dependent order (see the
counterexample). -/
theorem c6_store_sorted_by_timestamp (s : ChatState) (e : RawEvent) (b : Batch)
    (room : Nat) (m : Member) (h : s.events.Sorted tsLe) :
    (Chat.new room).1.events.Sorted tsLe ∧
    (Chat.timeline_event s e).1.events.Sorted tsLe ∧
    (Chat.batch_event s b).1.events.Sorted tsLe ∧
    (Chat.room_member_event s room m).1.events.Sorted tsLe := by
  refine ⟨List.sorted_nil, ?_, ?_, ?_⟩
  · by_cases hr : e.room_id = s.room_id
    · obtain ⟨f1, _, _, _⟩ := timeline_event_fields s e hr
      rw [f1]
      exact sortedVecPush_sorted s.events e h
    · unfold Chat.timeline_event
      rw [if_neg hr]
      exact h
  · by_cases hb : b.room = s.room_id
    · obtain ⟨_, _, _, f4, _⟩ := batchMid_fields s b
      rw [batch_event_eq s b hb]
      split
      · show (Chat.try_fetch_previous (batchMid s b)).1.events.Sorted tsLe
        rw [try_fetch_events, f4]
        exact foldl_push_sorted b.events s.events h
      · show (batchMid s b).events.Sorted tsLe
        rw [f4]
        exact foldl_push_sorted b.events s.events h
    · unfold Chat.batch_event
      rw [if_neg hb]
      exact h
  · unfold Chat.room_member_event
    by_cases hm : s.room_id = room
    · rw [if_pos hm]
      exact h
    · rw [if_neg hm]
      exact h

/-- Witness for C6 at a fresh sorted store: all entrypoints keep it
sorted. -/
theorem c6_store_sorted_by_timestamp_witness :
    (Chat.new 3).1.events.Sorted tsLe ∧
    (Chat.timeline_event (Chat.new 0).1
      { id := 1, room_id := 0, timestamp := 5, sender_id := 10,
        kind := EventKind.rootMessage "a" }).1.events.Sorted tsLe ∧
    (Chat.batch_event (Chat.new 0).1
      { room := 0,
        events := [{ id := 2, room_id := 0, timestamp := 4, sender_id := 10,
                     kind := EventKind.rootMessage "b" }],
        cursor := some "t" }).1.events.Sorted tsLe ∧
    (Chat.room_member_event (Chat.new 0).1 3
      { user_id := 7, display_name := none }).1.events.Sorted tsLe :=
  c6_store_sorted_by_timestamp (Chat.new 0).1
    { id := 1, room_id := 0, timestamp := 5, sender_id := 10,
      kind := EventKind.rootMessage "a" }
    { room := 0,
      events := [{ id := 2, room_id := 0, timestamp := 4, sender_id := 10,
                   kind := EventKind.rootMessage "b" }],
      cursor := some "t" } 3
    { user_id := 7, display_name := none } List.sorted_nil

/-- Two folds of pushes of permuted event lists onto the same sorted store
with globally distinct timestamps land in the same store. -/
theorem foldl_push_perm_eq (xs l1 l2 : List RawEvent)
    (hperm : l1.Perm l2) (hsorted : xs.Sorted tsLe)
    (hne : (xs ++ l1).Pairwise tsNe) :
    l1.foldl sortedVecPush xs = l2.foldl sortedVecPush xs := by
  have hp1 := foldl_push_perm l1 xs
  have hp2 := foldl_push_perm l2 xs
  have happend : (xs ++ l2).Perm (xs ++ l1) := (hperm.symm).append_left xs
  have hs1 := foldl_push_sorted l1 xs hsorted
  have hs2 := foldl_push_sorted l2 xs hsorted
  have hne1 : (l1.foldl sortedVecPush xs).Pairwise tsNe :=
    (hp1.pairwise_iff (fun hab hc => hab hc.symm)).mpr hne
  have hne2 : (l2.foldl sortedVecPush xs).Pairwise tsNe :=
    (hp2.pairwise_iff (fun hab hc => hab hc.symm)).mpr
      ((happend.pairwise_iff (fun hab hc => hab hc.symm)).mpr hne)
  exact sorted_strict_unique _ _ (hp1.trans (happend.symm.trans hp2.symm))
    (sorted_le_strict _ hs1 hne1) (sorted_le_strict _ hs2 hne2)

/-- The pre-check state of `batch_event` leaves the member list untouched. -/
theorem batchMid_members (s : ChatState) (b : Batch) :
    (batchMid s b).members = s.members := by
  obtain ⟨p1, p2, p3, p4, p5, p6, p7, p8, p9⟩ :=
    push_batch_fold b.events ({ s with next_cursor := b.cursor }, [])
  simp [batchMid, apply_ite ChatState.members, Chat.dedupe_events, p3]

/-- Fields of `batch_event` on a batch of the right room: the events are
pushed into the sorted store, the members are untouched and the message list
is rebuilt from the new store. -/
theorem batch_event_fields (s : ChatState) (b : Batch)
    (h : b.room = s.room_id) :
    (Chat.batch_event s b).1.events = b.events.foldl sortedVecPush s.events ∧
    (Chat.batch_event s b).1.members = s.members ∧
    (Chat.batch_event s b).1.room_id = s.room_id ∧
    (Chat.batch_event s b).1.messages
      = make_message_list (b.events.foldl sortedVecPush s.events) s.members := by
  obtain ⟨f1, f2, f3, f4, f5⟩ := batchMid_fields s b
  have fm := batchMid_members s b
  rw [batch_event_eq s b h]
  by_cases hgt : (batchMid s b).messages.length > s.messages.length
  · rw [if_pos hgt]
    exact ⟨(try_fetch_events _).trans f4, (try_fetch_members _).trans fm,
      (try_fetch_room_id _).trans f3, (try_fetch_messages _).trans f5⟩
  · rw [if_neg hgt]
    exact ⟨f4, fm, f3, f5⟩

/-- Fields of `deliver_all` over matching-room arrivals: the store is the
fold of pushes of every delivered event, the members are untouched, and —
once at least one arrival happened — the message list is the rebuild from
the final store. -/
theorem deliver_all_fields : ∀ (ds : List Delivery) (s : ChatState),
    (∀ d ∈ ds, d.room = s.room_id) →
    (Chat.deliver_all s ds).room_id = s.room_id ∧
    (Chat.deliver_all s ds).members = s.members ∧
    (Chat.deliver_all s ds).events
      = (deliveredEvents ds).foldl sortedVecPush s.events ∧
    (ds ≠ [] → (Chat.deliver_all s ds).messages
      = make_message_list
          ((deliveredEvents ds).foldl sortedVecPush s.events) s.members) := by
  intro ds
  induction ds with
  | nil => intro s _; exact ⟨rfl, rfl, rfl, fun hx => absurd rfl hx⟩
  | cons d rest ih =>
      intro s hroom
      have hd : d.room = s.room_id := hroom d (List.mem_cons_self d rest)
      have hstep :
          (Chat.deliver s d).events
            = (Delivery.events d).foldl sortedVecPush s.events ∧
          (Chat.deliver s d).members = s.members ∧
          (Chat.deliver s d).room_id = s.room_id ∧
          (Chat.deliver s d).messages
            = make_message_list
                ((Delivery.events d).foldl sortedVecPush s.events) s.members := by
        cases d with
        | live e =>
            obtain ⟨f1, f2, f3, f4⟩ := timeline_event_fields s e hd
            exact ⟨f1, f2, f3, f4⟩
        | batch b =>
            obtain ⟨f1, f2, f3, f4⟩ := batch_event_fields s b hd
            exact ⟨f1, f2, f3, f4⟩
      obtain ⟨t1, t2, t3, t4⟩ := hstep
      have hroom2 : ∀ x ∈ rest, Delivery.room x = (Chat.deliver s d).room_id := by
        intro x hx
        rw [t3]
        exact hroom x (List.mem_cons_of_mem d hx)
      obtain ⟨g1, g2, g3, g4⟩ := ih (Chat.deliver s d) hroom2
      have hfold : (deliveredEvents (d :: rest)).foldl sortedVecPush s.events
          = (deliveredEvents rest).foldl sortedVecPush
              ((Delivery.events d).foldl sortedVecPush s.events) := by
        simp [deliveredEvents, List.foldl_append]
      have hda : Chat.deliver_all s (d :: rest)
          = Chat.deliver_all (Chat.deliver s d) rest := rfl
      rw [hda]
      refine ⟨by rw [g1, t3], by rw [g2, t2], ?_, ?_⟩
      · rw [g3, t1, hfold]
      · intro _
        cases rest with
        | nil =>
            have hdev : deliveredEvents [d] = Delivery.events d := by
              simp [deliveredEvents]
            rw [show Chat.deliver_all (Chat.deliver s d) [] = Chat.deliver s d
              from rfl, hdev]
            exact t4
        | cons y ys =>
            rw [g4 (by simp), t1, t2, hfold]

/-- Claim C1, amended: when the events carry pairwise-distinct timestamps,
any two arrival schedules of the same event set — each arrival either a live
`timeline_event` or a fetch `batch_event`, in any order and grouping —
produce the same final store, and the same assembled message list whenever
either both schedules are empty or neither is. -/
theorem c1_order_independence_distinct_ts (s : ChatState)
    (d1 d2 : List Delivery)
    (hperm : (deliveredEvents d1).Perm (deliveredEvents d2))
    (hroom1 : ∀ d ∈ d1, d.room = s.room_id)
    (hroom2 : ∀ d ∈ d2, d.room = s.room_id)
    (hsorted : s.events.Sorted tsLe)
    (hne : (s.events ++ deliveredEvents d1).Pairwise tsNe) :
    (Chat.deliver_all s d1).events = (Chat.deliver_all s d2).events ∧
    ((d1 = [] ↔ d2 = []) →
      (Chat.deliver_all s d1).messages = (Chat.deliver_all s d2).messages) := by
  obtain ⟨r1, mem1, ev1, msg1⟩ := deliver_all_fields d1 s hroom1
  obtain ⟨r2, mem2, ev2, msg2⟩ := deliver_all_fields d2 s hroom2
  have hevents := foldl_push_perm_eq s.events _ _ hperm hsorted hne
  refine ⟨by rw [ev1, ev2, hevents], ?_⟩
  intro hiff
  by_cases h1 : d1 = []
  · have h2 : d2 = [] := hiff.mp h1
    subst h1
    subst h2
    rfl
  · have h2 : d2 ≠ [] := fun hx => h1 (hiff.mpr hx)
    rw [msg1 h1, msg2 h2, hevents]

/-- Witness for C1 at two concrete schedules of the same two
distinct-timestamp events: one delivers a live event then a one-event batch,
the other delivers a single two-event batch in the opposite event order. -/
theorem c1_order_independence_distinct_ts_witness :
    (Chat.deliver_all (Chat.new 0).1
      [Delivery.live
         { id := 1, room_id := 0, timestamp := 5, sender_id := 10,
           kind := EventKind.rootMessage "a" },
       Delivery.batch
         { room := 0,
           events :=
             [{ id := 2, room_id := 0, timestamp := 6, sender_id := 10,
                kind := EventKind.rootMessage "b" }],
           cursor := some "t" }]).events
      = (Chat.deliver_all (Chat.new 0).1
          [Delivery.batch
             { room := 0,
               events :=
                 [{ id := 2, room_id := 0, timestamp := 6, sender_id := 10,
                    kind := EventKind.rootMessage "b" },
                  { id := 1, room_id := 0, timestamp := 5, sender_id := 10,
                    kind := EventKind.rootMessage "a" }],
               cursor := none }]).events ∧
    (([Delivery.live
         { id := 1, room_id := 0, timestamp := 5, sender_id := 10,
           kind := EventKind.rootMessage "a" },
       Delivery.batch
         { room := 0,
           events :=
             [{ id := 2, room_id := 0, timestamp := 6, sender_id := 10,
                kind := EventKind.rootMessage "b" }],
           cursor := some "t" }] = ([] : List Delivery) ↔
      [Delivery.batch
         { room := 0,
           events :=
             [{ id := 2, room_id := 0, timestamp := 6, sender_id := 10,
                kind := EventKind.rootMessage "b" },
              { id := 1, room_id := 0, timestamp := 5, sender_id := 10,
                kind := EventKind.rootMessage "a" }],
           cursor := none }] = ([] : List Delivery)) →
      (Chat.deliver_all (Chat.new 0).1
        [Delivery.live
           { id := 1, room_id := 0, timestamp := 5, sender_id := 10,
             kind := EventKind.rootMessage "a" },
         Delivery.batch
           { room := 0,
             events :=
               [{ id := 2, room_id := 0, timestamp := 6, sender_id := 10,
                  kind := EventKind.rootMessage "b" }],
             cursor := some "t" }]).messages
        = (Chat.deliver_all (Chat.new 0).1
            [Delivery.batch
               { room := 0,
                 events :=
                   [{ id := 2, room_id := 0, timestamp := 6, sender_id := 10,
                      kind := EventKind.rootMessage "b" },
                    { id := 1, room_id := 0, timestamp := 5, sender_id := 10,
                      kind := EventKind.rootMessage "a" }],
                 cursor := none }]).messages) :=
  c1_order_independence_distinct_ts (Chat.new 0).1
    [Delivery.live
       { id := 1, room_id := 0, timestamp := 5, sender_id := 10,
         kind := EventKind.rootMessage "a" },
     Delivery.batch
       { room := 0,
         events :=
           [{ id := 2, room_id := 0, timestamp := 6, sender_id := 10,
              kind := EventKind.rootMessage "b" }],
         cursor := some "t" }]
    [Delivery.batch
       { room := 0,
         events :=
           [{ id := 2, room_id := 0, timestamp := 6, sender_id := 10,
              kind := EventKind.rootMessage "b" },
            { id := 1, room_id := 0, timestamp := 5, sender_id := 10,
              kind := EventKind.rootMessage "a" }],
         cursor := none }]
    (by decide) (by decide) (by decide) List.sorted_nil (by decide)

/-- Claim C3: a matching batch stores the new cursor; the in-flight flag ends
set only when a new fetch was emitted (it is cleared first); no backward
fetch is emitted unless the message count strictly grew; and when it grew, a
fetch is emitted precisely when a cursor remains and the margin is under
25. -/
theorem c3_batch_progress_guard (s : ChatState) (b : Batch)
    (h : b.room = s.room_id) :
    (Chat.batch_event s b).1.next_cursor = b.cursor ∧
    ((Chat.batch_event s b).1.fetching = true →
      ∃ c, Effect.fetchMessages s.room_id c ∈ (Chat.batch_event s b).2) ∧
    (¬ s.messages.length < (Chat.batch_event s b).1.messages.length →
      ∀ rm c, Effect.fetchMessages rm c ∉ (Chat.batch_event s b).2) ∧
    (s.messages.length < (Chat.batch_event s b).1.messages.length →
      ((∃ c, Effect.fetchMessages s.room_id c ∈ (Chat.batch_event s b).2) ↔
        (b.cursor ≠ none ∧
          usizeSub (Chat.batch_event s b).1.messages.length
            ((Chat.batch_event s b).1.selected.getD 0) < 25))) := by
  obtain ⟨f1, f2, f3, f4, f5⟩ := batchMid_fields s b
  rw [batch_event_eq s b h]
  by_cases hgt : (batchMid s b).messages.length > s.messages.length
  · rw [if_pos hgt]
    rcases try_fetch_chars (batchMid s b) with ⟨heq, hside⟩ | ⟨heq, hc, hf, hbuf⟩
    · rw [heq]
      refine ⟨f1, ?_, ?_, ?_⟩
      · intro hx
        rw [f2] at hx
        cases hx
      · intro _ rm c
        intro hmem
        rw [List.append_nil] at hmem
        exact absurd hmem (batchEffs_no_fetch s b rm c)
      · intro _
        constructor
        · rintro ⟨c, hmem⟩
          rw [List.append_nil] at hmem
          exact absurd hmem (batchEffs_no_fetch s b _ c)
        · rintro ⟨hcur, hbuf⟩
          rcases hside with hx | hx | hx
          · rw [f1] at hx
            exact absurd hx hcur
          · rw [f2] at hx
            cases hx
          · exact absurd hbuf hx
    · rw [heq]
      refine ⟨f1, ?_, ?_, ?_⟩
      · intro _
        refine ⟨(batchMid s b).next_cursor, ?_⟩
        rw [← f3]
        simp
      · intro hx
        exact absurd hgt hx
      · intro _
        constructor
        · intro _
          refine ⟨?_, hbuf⟩
          rw [← f1]
          exact hc
        · intro _
          refine ⟨(batchMid s b).next_cursor, ?_⟩
          rw [← f3]
          simp
  · rw [if_neg hgt]
    refine ⟨f1, ?_, ?_, ?_⟩
    · intro hx
      rw [f2] at hx
      cases hx
    · intro _ rm c
      exact batchEffs_no_fetch s b rm c
    · intro hx
      exact absurd hx hgt

/-- Witness for C3: a batch carrying one new event and a cursor makes
progress and immediately re-evaluates the backward fetch. -/
theorem c3_batch_progress_guard_witness :
    ({ room := 0,
       events := [{ id := 2, room_id := 0, timestamp := 4, sender_id := 10,
                    kind := EventKind.rootMessage "b" }],
       cursor := some "t" } : Batch).room = (Chat.new 0).1.room_id ∧
    ((Chat.batch_event (Chat.new 0).1
      { room := 0,
        events := [{ id := 2, room_id := 0, timestamp := 4, sender_id := 10,
                     kind := EventKind.rootMessage "b" }],
        cursor := some "t" }).1.next_cursor = some "t" ∧
    ((Chat.batch_event (Chat.new 0).1
      { room := 0,
        events := [{ id := 2, room_id := 0, timestamp := 4, sender_id := 10,
                     kind := EventKind.rootMessage "b" }],
        cursor := some "t" }).1.fetching = true →
      ∃ c, Effect.fetchMessages (Chat.new 0).1.room_id c ∈
        (Chat.batch_event (Chat.new 0).1
          { room := 0,
            events := [{ id := 2, room_id := 0, timestamp := 4, sender_id := 10,
                         kind := EventKind.rootMessage "b" }],
            cursor := some "t" }).2) ∧
    (¬ (Chat.new 0).1.messages.length < (Chat.batch_event (Chat.new 0).1
        { room := 0,
          events := [{ id := 2, room_id := 0, timestamp := 4, sender_id := 10,
                       kind := EventKind.rootMessage "b" }],
          cursor := some "t" }).1.messages.length →
      ∀ rm c, Effect.fetchMessages rm c ∉
        (Chat.batch_event (Chat.new 0).1
          { room := 0,
            events := [{ id := 2, room_id := 0, timestamp := 4, sender_id := 10,
                         kind := EventKind.rootMessage "b" }],
            cursor := some "t" }).2) ∧
    ((Chat.new 0).1.messages.length < (Chat.batch_event (Chat.new 0).1
        { room := 0,
          events := [{ id := 2, room_id := 0, timestamp := 4, sender_id := 10,
                       kind := EventKind.rootMessage "b" }],
          cursor := some "t" }).1.messages.length →
      ((∃ c, Effect.fetchMessages (Chat.new 0).1.room_id c ∈
          (Chat.batch_event (Chat.new 0).1
            { room := 0,
              events := [{ id := 2, room_id := 0, timestamp := 4, sender_id := 10,
                           kind := EventKind.rootMessage "b" }],
              cursor := some "t" }).2) ↔
        ((some "t" : Option String) ≠ none ∧
          usizeSub (Chat.batch_event (Chat.new 0).1
              { room := 0,
                events := [{ id := 2, room_id := 0, timestamp := 4, sender_id := 10,
                             kind := EventKind.rootMessage "b" }],
                cursor := some "t" }).1.messages.length
            ((Chat.batch_event (Chat.new 0).1
              { room := 0,
                events := [{ id := 2, room_id := 0, timestamp := 4, sender_id := 10,
                             kind := EventKind.rootMessage "b" }],
                cursor := some "t" }).1.selected.getD 0) < 25)))) :=
  ⟨rfl,
   c3_batch_progress_guard (Chat.new 0).1
     { room := 0,
       events := [{ id := 2, room_id := 0, timestamp := 4, sender_id := 10,
                    kind := EventKind.rootMessage "b" }],
       cursor := some "t" } rfl⟩
